import Mathlib

/-!
# shopping-cart-clear.js

A shallow embedding of the CKAN module `shopping-cart-clear`
(`ckanext/shopping_cart/assets/js/shopping-cart-clear.js`).

JavaScript objects live on a heap and are referred to by address, so that
object identity (a fresh payload, a fresh pair of arrow functions per call)
can be stated.  The calls the module makes on its host collaborators
(`this.el.on`, `this.sandbox.client.call`, `this.sandbox.publish`,
`console.warn`) are recorded, in order, in a trace of effects.  The collaborators
themselves are supplied by CKAN and are taken to be present; method dispatch on
`this` (`this.clear()`, `this._onClearSucceed(data)`, `this._onClearFailed(resp)`)
is static.
-/

namespace ShoppingCartClear

/-- Heap address of an object or function. -/
abbrev Addr := Nat

/-- JavaScript values: the primitives and references to heap cells.  Numbers are
never computed with by this module, they are carried around as opaque data. -/
inductive JsVal where
  | null
  | undefined
  | bool (b : Bool)
  | num (n : Int)
  | str (s : String)
  | ref (a : Addr)
  deriving DecidableEq, Repr

/-- Own properties of a plain object, in insertion order. -/
abbrev Obj := List (String × JsVal)

/-- The three arrow functions written in the source:
`() => this.clear()` (line 10), `(data) => this._onClearSucceed(data)` (line 21)
and `(resp) => this._onClearFailed(resp)` (line 22). -/
inductive Lambda where
  | clickListener
  | onSuccess
  | onFailure
  deriving DecidableEq, Repr

/-- A heap cell: a plain object, or an arrow function closed over its `this`. -/
inductive Cell where
  | obj (props : Obj)
  | closure (code : Lambda) (self : Addr)
  deriving DecidableEq, Repr

/-- The heap: the address of a cell is its index; allocation appends. -/
abbrev Heap := List Cell

/-- Calls made on the host collaborators, as they appear in the source. -/
inductive Effect where
  /-- The call `this.el.on(event, listener)`. -/
  | elOn (event : JsVal) (listener : JsVal)
  /-- The call `this.sandbox.client.call(method, endpoint, payload, onSuccess, onFailure)`. -/
  | clientCall (method endpoint payload onSuccess onFailure : JsVal)
  /-- The call `this.sandbox.publish(event, ...args)`. -/
  | publish (event : JsVal) (args : List JsVal)
  /-- The call `console.warn(...args)`. -/
  | consoleWarn (args : List JsVal)
  deriving DecidableEq, Repr

/-- Exceptions the module's code can raise. -/
inductive JsError where
  | typeError
  deriving DecidableEq, Repr

/-- The state threaded through the module's code: the heap and the trace of
host calls made so far. -/
structure World where
  heap : Heap
  trace : List Effect
  deriving DecidableEq, Repr

/-- Value of an own property of a plain object, `undefined` when absent. -/
def field (ps : Obj) (k : String) : JsVal :=
  (ps.lookup k).getD JsVal.undefined

/-- Property read `v.k`.  Reading a property of `null` or `undefined` throws a
`TypeError`; a primitive or a function has none of the data properties this
module reads, so the read gives `undefined`. -/
def getProp (h : Heap) (v : JsVal) (k : String) : Except JsError JsVal :=
  match v with
  | JsVal.null => Except.error JsError.typeError
  | JsVal.undefined => Except.error JsError.typeError
  | JsVal.ref a =>
    match h[a]? with
    | some (Cell.obj ps) => Except.ok (field ps k)
    | _ => Except.ok JsVal.undefined
  | _ => Except.ok JsVal.undefined

/-- The default `options` of the module (lines 4-8). -/
def options : Obj :=
  [("scope", JsVal.null), ("cart", JsVal.null), ("username", JsVal.null)]

/-- The method `initialize` (lines 9-11; the name is reserved in Lean): `this.el.on("click", () => this.clear())`. -/
def initWidget (this : Addr) (w : World) : World :=
  { heap := w.heap ++ [Cell.closure Lambda.clickListener this]
    trace := w.trace ++ [Effect.elOn (JsVal.str "click") (JsVal.ref w.heap.length)] }

/-- The method `clear` (lines 13-24). -/
def clear (this : Addr) (w : World) : Except JsError World := do
  -- const { scope, cart, username } = this.options;
  let opts ← getProp w.heap (JsVal.ref this) "options"
  let scope ← getProp w.heap opts "scope"
  let cart ← getProp w.heap opts "cart"
  let username ← getProp w.heap opts "username"
  -- const payload = { cart, scope, username };
  let payload := w.heap.length
  -- this.sandbox.client.call("POST", "shopping_cart_clear", payload, (data) => ..., (resp) => ...)
  pure
    { heap := w.heap ++
        [Cell.obj [("cart", cart), ("scope", scope), ("username", username)],
         Cell.closure Lambda.onSuccess this,
         Cell.closure Lambda.onFailure this]
      trace := w.trace ++
        [Effect.clientCall (JsVal.str "POST") (JsVal.str "shopping_cart_clear")
          (JsVal.ref payload) (JsVal.ref (payload + 1)) (JsVal.ref (payload + 2))] }

/-- The method `_onClearSucceed` (lines 26-28):
`this.sandbox.publish(CART_REFRESH, this.options.cart, data.result)`.
`CART_REFRESH` is the constant taken from `CkanextShoppingCart.events` on line 2,
which is defined outside this file; it is a parameter here. -/
def _onClearSucceed (CART_REFRESH : JsVal) (this : Addr) (data : JsVal) (w : World) :
    Except JsError World := do
  let opts ← getProp w.heap (JsVal.ref this) "options"
  let cart ← getProp w.heap opts "cart"
  let result ← getProp w.heap data "result"
  pure { w with trace := w.trace ++ [Effect.publish CART_REFRESH [cart, result]] }

/-- The method `_onClearFailed` (lines 30-32): `console.warn(resp)`. -/
def _onClearFailed (_this : Addr) (resp : JsVal) (w : World) : World :=
  { w with trace := w.trace ++ [Effect.consoleWarn [resp]] }

/-- Body of each arrow function, applied to its captured `this` and its argument. -/
def applyLambda (CART_REFRESH : JsVal) :
    Lambda → Addr → JsVal → World → Except JsError World
  | Lambda.clickListener, this, _, w => clear this w
  | Lambda.onSuccess, this, data, w => _onClearSucceed CART_REFRESH this data w
  | Lambda.onFailure, this, resp, w => Except.ok (_onClearFailed this resp w)

/-- Function call `f(arg)`: calling something that is not a function throws. -/
def invoke (CART_REFRESH : JsVal) (f arg : JsVal) (w : World) : Except JsError World :=
  match f with
  | JsVal.ref a =>
    match w.heap[a]? with
    | some (Cell.closure code self) => applyLambda CART_REFRESH code self arg w
    | _ => Except.error JsError.typeError
  | _ => Except.error JsError.typeError

/-! ## The host: the event loop that drives the module

The bound element, the remote-call client and the event loop belong to the
host page.  They are modelled as far as the module's contract with them goes:
the element calls the listeners it was given when it is clicked, and the
client calls one of the two continuations it was given when a request settles.
The host may allocate objects of its own; it does not modify the widget, its
options object or the objects the widget has allocated. -/

/-- One turn of the event loop: run `f(arg)`; an exception escaping the turn is
dropped by the host.  Every exception of this module is raised before the
first effect of the method that raises it, so nothing is lost. -/
def turn (CART_REFRESH : JsVal) (f arg : JsVal) (w : World) : World :=
  match invoke CART_REFRESH f arg w with
  | Except.ok w' => w'
  | Except.error _ => w

/-- The click listeners registered on the bound element so far. -/
def listeners (t : List Effect) : List JsVal :=
  t.filterMap fun e =>
    match e with
    | Effect.elOn ev f => if ev = JsVal.str "click" then some f else none
    | _ => none

/-- A remote call handed to the client. -/
structure Call where
  method : JsVal
  endpoint : JsVal
  payload : JsVal
  onSuccess : JsVal
  onFailure : JsVal
  deriving DecidableEq, Repr

/-- The remote calls issued so far, oldest first. -/
def calls (t : List Effect) : List Call :=
  t.filterMap fun e =>
    match e with
    | Effect.clientCall m e p s f => some (Call.mk m e p s f)
    | _ => none

/-- The broadcasts and warning log entries made so far. -/
def outcomes (t : List Effect) : List Effect :=
  t.filter fun e =>
    match e with
    | Effect.publish _ _ => true
    | Effect.consoleWarn _ => true
    | _ => false

/-- What the host can do to the module. -/
inductive Event where
  /-- The bound element is clicked; `ev` is the event object. -/
  | click (ev : JsVal)
  /-- The client settles the `k`-th issued call with the decoded body `data`. -/
  | succeed (k : Nat) (data : JsVal)
  /-- The client settles the `k`-th issued call with the failure response `resp`. -/
  | fail (k : Nat) (resp : JsVal)
  /-- The host allocates a plain object (a decoded response, for instance). -/
  | hostAlloc (props : Obj)
  deriving DecidableEq, Repr

/-- Whether the event is a click. -/
def Event.isClick : Event → Bool
  | Event.click _ => true
  | _ => false

/-- The call an event settles, if it settles one. -/
def Event.settles : Event → Option Nat
  | Event.succeed k _ => some k
  | Event.fail k _ => some k
  | _ => none

/-- The host handles one event. -/
def step (CART_REFRESH : JsVal) (w : World) : Event → World
  | Event.click ev => (listeners w.trace).foldl (fun w' f => turn CART_REFRESH f ev w') w
  | Event.succeed k data =>
    match (calls w.trace)[k]? with
    | some c => turn CART_REFRESH c.onSuccess data w
    | none => w
  | Event.fail k resp =>
    match (calls w.trace)[k]? with
    | some c => turn CART_REFRESH c.onFailure resp w
    | none => w
  | Event.hostAlloc props => { w with heap := w.heap ++ [Cell.obj props] }

/-- The host handles a sequence of events. -/
def run (CART_REFRESH : JsVal) (w : World) (evs : List Event) : World :=
  evs.foldl (step CART_REFRESH) w

/-- The widget instance `this` is an object whose `options` property refers to
the object at `oa`, whose own properties are `cfg`. -/
def WidgetAt (h : Heap) (this oa : Addr) (cfg : Obj) : Prop :=
  (∃ wprops, h[this]? = some (Cell.obj wprops) ∧
    wprops.lookup "options" = some (JsVal.ref oa)) ∧
  h[oa]? = some (Cell.obj cfg)

/-- The object a value refers to is a response whose `result` field is `x`. -/
def IsResponse (h : Heap) (data x : JsVal) : Prop :=
  ∃ da dprops, data = JsVal.ref da ∧ h[da]? = some (Cell.obj dprops) ∧
    dprops.lookup "result" = some x

/-- The call `clear` issues when its payload is allocated at `p`. -/
def callAt (p : Addr) : Call :=
  Call.mk (JsVal.str "POST") (JsVal.str "shopping_cart_clear")
    (JsVal.ref p) (JsVal.ref (p + 1)) (JsVal.ref (p + 2))

/-- The payload object `{ cart, scope, username }` built from a configuration. -/
def payloadOf (cfg : Obj) : Obj :=
  [("cart", field cfg "cart"), ("scope", field cfg "scope"), ("username", field cfg "username")]

/-- What holds of every world reached from a freshly initialised widget whose
click listener was allocated at `L`: the configuration is in place, the listener
is the only one, and every call issued so far is a `callAt p` whose payload and
continuations are the three cells allocated at `p`. -/
structure Inv (this oa : Addr) (cfg : Obj) (L : Addr) (w : World) : Prop where
  widget : WidgetAt w.heap this oa cfg
  listener : listeners w.trace = [JsVal.ref L]
  listenerCell : w.heap[L]? = some (Cell.closure Lambda.clickListener this)
  issued : ∃ ps : List Addr, calls w.trace = ps.map callAt ∧
    ps.Pairwise (fun p q => p + 3 ≤ q) ∧
    ∀ p ∈ ps, p + 3 ≤ w.heap.length ∧
      w.heap[p]? = some (Cell.obj (payloadOf cfg)) ∧
      w.heap[p + 1]? = some (Cell.closure Lambda.onSuccess this) ∧
      w.heap[p + 2]? = some (Cell.closure Lambda.onFailure this)

/-! ## A concrete page, for the end-to-end scenarios -/

/-- Heap of the scenario: the widget at 0, its options
`{cart: "cart-1", scope: "org-a", username: "alice"}` at 1. -/
def demoHeap : Heap :=
  [Cell.obj [("options", JsVal.ref 1)],
   Cell.obj [("scope", JsVal.str "org-a"), ("cart", JsVal.str "cart-1"),
             ("username", JsVal.str "alice")]]

/-- The configuration of the scenario. -/
def demoCfg : Obj :=
  [("scope", JsVal.str "org-a"), ("cart", JsVal.str "cart-1"), ("username", JsVal.str "alice")]

/-- The event name used in the scenario. -/
def demoEvent : JsVal := JsVal.str "CART_REFRESH"

/-- The objects the host allocates in the scenario: the array `[]`, then
`{items: []}`, `{result: {items: []}}` and `{error: "forbidden"}`, where `base` is
the address of the first of them. -/
def demoResponses (base : Addr) : List Cell :=
  [Cell.obj [], Cell.obj [("items", JsVal.ref base)],
   Cell.obj [("result", JsVal.ref (base + 1))],
   Cell.obj [("error", JsVal.str "forbidden")]]

/-! ## Basic facts about the methods -/

theorem getProp_this_options {h : Heap} {this oa : Addr} {cfg : Obj}
    (hw : WidgetAt h this oa cfg) :
    getProp h (JsVal.ref this) "options" = Except.ok (JsVal.ref oa) := by
  obtain ⟨⟨wprops, h1, h2⟩, _⟩ := hw
  simp [getProp, h1, field, h2]

theorem getProp_options_field {h : Heap} {this oa : Addr} {cfg : Obj}
    (hw : WidgetAt h this oa cfg) (k : String) :
    getProp h (JsVal.ref oa) k = Except.ok (field cfg k) := by
  obtain ⟨_, h3⟩ := hw
  simp [getProp, h3]

theorem clear_eq {h : Heap} {this oa : Addr} {cfg : Obj} (hw : WidgetAt h this oa cfg)
    (t : List Effect) :
    clear this ⟨h, t⟩ = Except.ok
      ⟨h ++ [Cell.obj (payloadOf cfg), Cell.closure Lambda.onSuccess this,
             Cell.closure Lambda.onFailure this],
       t ++ [Effect.clientCall (JsVal.str "POST") (JsVal.str "shopping_cart_clear")
              (JsVal.ref h.length) (JsVal.ref (h.length + 1)) (JsVal.ref (h.length + 2))]⟩ := by
  simp [clear, getProp_this_options hw, getProp_options_field hw, payloadOf, bind, Except.bind,
    pure, Except.pure]

theorem onClearSucceed_eq {h : Heap} {this oa : Addr} {cfg : Obj} (hw : WidgetAt h this oa cfg)
    (CART_REFRESH data x : JsVal) (hx : getProp h data "result" = Except.ok x)
    (t : List Effect) :
    _onClearSucceed CART_REFRESH this data ⟨h, t⟩ = Except.ok
      ⟨h, t ++ [Effect.publish CART_REFRESH [field cfg "cart", x]]⟩ := by
  simp [_onClearSucceed, getProp_this_options hw, getProp_options_field hw, hx, bind,
    Except.bind, pure, Except.pure]

theorem widgetAt_append {h : Heap} {this oa : Addr} {cfg : Obj} (hw : WidgetAt h this oa cfg)
    (extra : List Cell) : WidgetAt (h ++ extra) this oa cfg := by
  obtain ⟨⟨wprops, h1, h2⟩, h3⟩ := hw
  have lt1 : this < h.length := by
    rcases Nat.lt_or_ge this h.length with hlt | hge
    · exact hlt
    · rw [List.getElem?_eq_none hge] at h1; cases h1
  have lt2 : oa < h.length := by
    rcases Nat.lt_or_ge oa h.length with hlt | hge
    · exact hlt
    · rw [List.getElem?_eq_none hge] at h3; cases h3
  refine ⟨⟨wprops, ?_, h2⟩, ?_⟩
  · rw [List.getElem?_append_left lt1]; exact h1
  · rw [List.getElem?_append_left lt2]; exact h3

theorem widgetAt_lt {h : Heap} {this oa : Addr} {cfg : Obj} (hw : WidgetAt h this oa cfg) :
    this < h.length ∧ oa < h.length := by
  obtain ⟨⟨wprops, h1, _⟩, h3⟩ := hw
  constructor
  · rcases Nat.lt_or_ge this h.length with hlt | hge
    · exact hlt
    · rw [List.getElem?_eq_none hge] at h1; cases h1
  · rcases Nat.lt_or_ge oa h.length with hlt | hge
    · exact hlt
    · rw [List.getElem?_eq_none hge] at h3; cases h3

theorem demo_widgetAt : WidgetAt demoHeap 0 1 demoCfg :=
  ⟨⟨[("options", JsVal.ref 1)], rfl, rfl⟩, rfl⟩

theorem getProp_of_isResponse {h : Heap} {data x : JsVal} (hr : IsResponse h data x) :
    getProp h data "result" = Except.ok x := by
  obtain ⟨da, dprops, rfl, h1, h2⟩ := hr
  simp [getProp, h1, field, h2]

theorem getElem?_append_of_some {h : Heap} {a : Addr} {c : Cell} (hc : h[a]? = some c)
    (extra : List Cell) : (h ++ extra)[a]? = some c := by
  have lt : a < h.length := by
    rcases Nat.lt_or_ge a h.length with hlt | hge
    · exact hlt
    · rw [List.getElem?_eq_none hge] at hc; cases hc
  rw [List.getElem?_append_left lt]; exact hc

theorem listeners_append (t u : List Effect) : listeners (t ++ u) = listeners t ++ listeners u := by
  simp [listeners]

theorem calls_append (t u : List Effect) : calls (t ++ u) = calls t ++ calls u := by
  simp [calls]

theorem outcomes_append (t u : List Effect) : outcomes (t ++ u) = outcomes t ++ outcomes u := by
  simp [outcomes]

theorem calls_clientCall (m e p s f : JsVal) :
    calls [Effect.clientCall m e p s f] = [Call.mk m e p s f] := rfl

theorem calls_publish (e : JsVal) (a : List JsVal) : calls [Effect.publish e a] = [] := rfl

theorem calls_consoleWarn (a : List JsVal) : calls [Effect.consoleWarn a] = [] := rfl

theorem outcomes_clientCall (m e p s f : JsVal) :
    outcomes [Effect.clientCall m e p s f] = [] := rfl

theorem outcomes_publish (e : JsVal) (a : List JsVal) :
    outcomes [Effect.publish e a] = [Effect.publish e a] := rfl

theorem outcomes_consoleWarn (a : List JsVal) :
    outcomes [Effect.consoleWarn a] = [Effect.consoleWarn a] := rfl

theorem run_append (CART_REFRESH : JsVal) (w : World) (evs more : List Event) :
    run CART_REFRESH w (evs ++ more) = run CART_REFRESH (run CART_REFRESH w evs) more := by
  simp [run]

/-- Whatever its input, `clear` either throws with no effect or appends three cells
and one remote call. -/
theorem clear_cases (this : Addr) (w : World) :
    (∃ e, clear this w = Except.error e) ∨
    ∃ pl : Obj, clear this w = Except.ok
      ⟨w.heap ++ [Cell.obj pl, Cell.closure Lambda.onSuccess this,
                  Cell.closure Lambda.onFailure this],
       w.trace ++ [Effect.clientCall (JsVal.str "POST") (JsVal.str "shopping_cart_clear")
         (JsVal.ref w.heap.length) (JsVal.ref (w.heap.length + 1))
         (JsVal.ref (w.heap.length + 2))]⟩ := by
  unfold clear
  cases h0 : getProp w.heap (JsVal.ref this) "options" with
  | error e => left; exact ⟨e, rfl⟩
  | ok opts =>
    cases h1 : getProp w.heap opts "scope" with
    | error e => left; exact ⟨e, by simp [bind, Except.bind, h1]⟩
    | ok scope =>
      cases h2 : getProp w.heap opts "cart" with
      | error e => left; exact ⟨e, by simp [bind, Except.bind, h1, h2]⟩
      | ok cart =>
        cases h3 : getProp w.heap opts "username" with
        | error e => left; exact ⟨e, by simp [bind, Except.bind, h1, h2, h3]⟩
        | ok username =>
          right
          exact ⟨[("cart", cart), ("scope", scope), ("username", username)],
            by simp [bind, Except.bind, h1, h2, h3, pure, Except.pure]⟩

/-- Whatever its input, `_onClearSucceed` either throws with no effect or appends
one broadcast. -/
theorem onClearSucceed_cases (CART_REFRESH : JsVal) (this : Addr) (data : JsVal) (w : World) :
    (∃ e, _onClearSucceed CART_REFRESH this data w = Except.error e) ∨
    ∃ c x, _onClearSucceed CART_REFRESH this data w = Except.ok
      ⟨w.heap, w.trace ++ [Effect.publish CART_REFRESH [c, x]]⟩ := by
  unfold _onClearSucceed
  cases h0 : getProp w.heap (JsVal.ref this) "options" with
  | error e => left; exact ⟨e, rfl⟩
  | ok opts =>
    cases h1 : getProp w.heap opts "cart" with
    | error e => left; exact ⟨e, by simp [bind, Except.bind, h1]⟩
    | ok cart =>
      cases h2 : getProp w.heap data "result" with
      | error e => left; exact ⟨e, by simp [bind, Except.bind, h1, h2]⟩
      | ok x =>
        right
        exact ⟨cart, x, by simp [bind, Except.bind, h1, h2, pure, Except.pure]⟩

/-! ## The event loop on an initialised widget -/

theorem inv_init {h : Heap} {this oa : Addr} {cfg : Obj} (hw : WidgetAt h this oa cfg) :
    Inv this oa cfg h.length (initWidget this ⟨h, []⟩) where
  widget := widgetAt_append hw _
  listener := by simp [initWidget, listeners]
  listenerCell := by simp [initWidget]
  issued := ⟨[], by simp [initWidget, calls], List.Pairwise.nil, by simp⟩

theorem getElem?_alloc (h : Heap) (a b c : Cell) :
    (h ++ [a, b, c])[h.length]? = some a ∧ (h ++ [a, b, c])[h.length + 1]? = some b ∧
    (h ++ [a, b, c])[h.length + 2]? = some c := by
  refine ⟨?_, ?_, ?_⟩
  · rw [List.getElem?_append_right (Nat.le_refl _)]; simp
  · rw [List.getElem?_append_right (Nat.le_add_right _ _)]; simp
  · rw [List.getElem?_append_right (Nat.le_add_right _ _)]; simp

theorem inv_heap_append {this oa : Addr} {cfg : Obj} {L : Addr} {h : Heap} {t : List Effect}
    (hi : Inv this oa cfg L ⟨h, t⟩) (extra : List Cell) :
    Inv this oa cfg L ⟨h ++ extra, t⟩ where
  widget := widgetAt_append hi.widget _
  listener := hi.listener
  listenerCell := getElem?_append_of_some hi.listenerCell _
  issued := by
    obtain ⟨ps, h1, h2, h3⟩ := hi.issued
    refine ⟨ps, h1, h2, fun p hp => ?_⟩
    obtain ⟨a, b, c, d⟩ := h3 p hp
    exact ⟨Nat.le_trans a (by simp), getElem?_append_of_some b _,
      getElem?_append_of_some c _, getElem?_append_of_some d _⟩

theorem inv_trace_append {this oa : Addr} {cfg : Obj} {L : Addr} {h : Heap} {t : List Effect}
    (hi : Inv this oa cfg L ⟨h, t⟩) (e : Effect) (hl : listeners [e] = [])
    (hc : calls [e] = []) :
    Inv this oa cfg L ⟨h, t ++ [e]⟩ where
  widget := hi.widget
  listener := by
    have := hi.listener
    simp only at this
    simp [listeners_append, hl, this]
  listenerCell := hi.listenerCell
  issued := by
    obtain ⟨ps, h1, h2, h3⟩ := hi.issued
    simp only at h1
    exact ⟨ps, by simp [calls_append, hc, h1], h2, h3⟩

theorem step_click {this oa : Addr} {cfg : Obj} {L : Addr} {h : Heap} {t : List Effect}
    (hi : Inv this oa cfg L ⟨h, t⟩) (CART_REFRESH ev : JsVal) :
    step CART_REFRESH ⟨h, t⟩ (Event.click ev) =
      ⟨h ++ [Cell.obj (payloadOf cfg), Cell.closure Lambda.onSuccess this,
             Cell.closure Lambda.onFailure this],
       t ++ [Effect.clientCall (JsVal.str "POST") (JsVal.str "shopping_cart_clear")
         (JsVal.ref h.length) (JsVal.ref (h.length + 1)) (JsVal.ref (h.length + 2))]⟩ := by
  have hl := hi.listener
  have hc := hi.listenerCell
  have hw := hi.widget
  simp only at hl hc hw
  simp [step, hl, turn, invoke, hc, applyLambda, clear_eq hw]

theorem inv_click {this oa : Addr} {cfg : Obj} {L : Addr} {h : Heap} {t : List Effect}
    (hi : Inv this oa cfg L ⟨h, t⟩) (CART_REFRESH ev : JsVal) :
    Inv this oa cfg L (step CART_REFRESH ⟨h, t⟩ (Event.click ev)) := by
  rw [step_click hi]
  have hl := hi.listener
  obtain ⟨ps, h1, h2, h3⟩ := hi.issued
  simp only at hl h1 h3
  have hal := getElem?_alloc h (Cell.obj (payloadOf cfg)) (Cell.closure Lambda.onSuccess this)
    (Cell.closure Lambda.onFailure this)
  refine ⟨widgetAt_append hi.widget _, ?_, getElem?_append_of_some hi.listenerCell _, ?_⟩
  · simp only [listeners_append, hl]
    simp [listeners]
  · refine ⟨ps ++ [h.length], ?_, ?_, ?_⟩
    · simp only [calls_append, h1]
      simp [calls, callAt]
    · rw [List.pairwise_append]
      refine ⟨h2, List.pairwise_singleton _ _, ?_⟩
      intro a ha b hb
      simp only [List.mem_singleton] at hb
      subst hb
      exact (h3 a ha).1
    · intro p hp
      rw [List.mem_append] at hp
      rcases hp with hp | hp
      · obtain ⟨a, b, c, d⟩ := h3 p hp
        exact ⟨Nat.le_trans a (by simp), getElem?_append_of_some b _,
          getElem?_append_of_some c _, getElem?_append_of_some d _⟩
      · simp only [List.mem_singleton] at hp
        subst hp
        exact ⟨by simp, hal.1, hal.2.1, hal.2.2⟩

theorem inv_call_get {this oa : Addr} {cfg : Obj} {L : Addr} {h : Heap} {t : List Effect}
    (hi : Inv this oa cfg L ⟨h, t⟩) {k : Nat} {c : Call} (hk : (calls t)[k]? = some c) :
    ∃ p, c = callAt p ∧ h[p + 1]? = some (Cell.closure Lambda.onSuccess this) ∧
      h[p + 2]? = some (Cell.closure Lambda.onFailure this) := by
  obtain ⟨ps, h1, _, h3⟩ := hi.issued
  simp only at h1 h3
  rw [h1, List.getElem?_map] at hk
  cases hp : ps[k]? with
  | none => rw [hp] at hk; cases hk
  | some p =>
    rw [hp] at hk
    simp only [Option.map_some', Option.some.injEq] at hk
    have hmem : p ∈ ps := List.getElem?_mem hp
    exact ⟨p, hk.symm, (h3 p hmem).2.2.1, (h3 p hmem).2.2.2⟩

theorem step_settle_none (CART_REFRESH : JsVal) (h : Heap) (t : List Effect) (k : Nat)
    (hk : (calls t).length ≤ k) (v : JsVal) :
    step CART_REFRESH ⟨h, t⟩ (Event.succeed k v) = ⟨h, t⟩ ∧
    step CART_REFRESH ⟨h, t⟩ (Event.fail k v) = ⟨h, t⟩ := by
  simp [step, List.getElem?_eq_none hk]

theorem step_succeed {this oa : Addr} {cfg : Obj} {L : Addr} {h : Heap} {t : List Effect}
    (hi : Inv this oa cfg L ⟨h, t⟩) (CART_REFRESH : JsVal) {k : Nat}
    (hk : k < (calls t).length) {data x : JsVal}
    (hx : getProp h data "result" = Except.ok x) :
    step CART_REFRESH ⟨h, t⟩ (Event.succeed k data) =
      ⟨h, t ++ [Effect.publish CART_REFRESH [field cfg "cart", x]]⟩ := by
  have hget : (calls t)[k]? = some ((calls t)[k]) := List.getElem?_eq_getElem hk
  obtain ⟨p, hc, hs, _⟩ := inv_call_get hi hget
  have hw := hi.widget
  simp only at hw
  simp [step, hget, hc, callAt, turn, invoke, hs, applyLambda, onClearSucceed_eq hw _ _ _ hx]

theorem step_succeed_cases {this oa : Addr} {cfg : Obj} {L : Addr} {h : Heap}
    {t : List Effect} (hi : Inv this oa cfg L ⟨h, t⟩) (CART_REFRESH : JsVal) (k : Nat)
    (data : JsVal) :
    step CART_REFRESH ⟨h, t⟩ (Event.succeed k data) = ⟨h, t⟩ ∨
    (k < (calls t).length ∧ ∃ x, step CART_REFRESH ⟨h, t⟩ (Event.succeed k data) =
      ⟨h, t ++ [Effect.publish CART_REFRESH [field cfg "cart", x]]⟩) := by
  rcases Nat.lt_or_ge k (calls t).length with hk | hk
  · cases hx : getProp h data "result" with
    | ok x => right; exact ⟨hk, x, step_succeed hi _ hk hx⟩
    | error e =>
      left
      have hget : (calls t)[k]? = some ((calls t)[k]) := List.getElem?_eq_getElem hk
      obtain ⟨p, hc, hs, _⟩ := inv_call_get hi hget
      have hw := hi.widget
      simp only at hw
      simp [step, hget, hc, callAt, turn, invoke, hs, applyLambda, _onClearSucceed,
        getProp_this_options hw, getProp_options_field hw, hx, bind, Except.bind]
  · left; exact (step_settle_none _ h t k hk data).1

theorem step_fail {this oa : Addr} {cfg : Obj} {L : Addr} {h : Heap} {t : List Effect}
    (hi : Inv this oa cfg L ⟨h, t⟩) (CART_REFRESH : JsVal) {k : Nat}
    (hk : k < (calls t).length) (resp : JsVal) :
    step CART_REFRESH ⟨h, t⟩ (Event.fail k resp) = ⟨h, t ++ [Effect.consoleWarn [resp]]⟩ := by
  have hget : (calls t)[k]? = some ((calls t)[k]) := List.getElem?_eq_getElem hk
  obtain ⟨p, hc, _, hf⟩ := inv_call_get hi hget
  simp [step, hget, hc, callAt, turn, invoke, hf, applyLambda, _onClearFailed]

theorem filter_lt_succ_le (l : List Nat) (n : Nat) :
    (l.filter fun k => decide (k < n)).length ≤ (l.filter fun k => decide (k < n + 1)).length := by
  induction l with
  | nil => simp
  | cons a l ih =>
    by_cases h1 : a < n
    · have h2 : a < n + 1 := Nat.lt_succ_of_lt h1
      simp [List.filter_cons, h1, h2, ih]
    · by_cases h2 : a < n + 1
      · simp only [List.filter_cons, h1, h2, decide_True, decide_False, if_true, if_false,
          List.length_cons, Bool.false_eq_true]
        exact Nat.le_succ_of_le ih
      · simp [List.filter_cons, h1, h2, ih]

theorem run_singleton (CART_REFRESH : JsVal) (w : World) (e : Event) :
    run CART_REFRESH w [e] = step CART_REFRESH w e := rfl

/-- Every world reached from a freshly initialised widget satisfies the invariant,
has issued one call per click, and has at most one outcome per settlement of an
issued call. -/
theorem run_inv {h : Heap} {this oa : Addr} {cfg : Obj} (hw : WidgetAt h this oa cfg)
    (CART_REFRESH : JsVal) (evs : List Event) :
    Inv this oa cfg h.length (run CART_REFRESH (initWidget this ⟨h, []⟩) evs) ∧
    (calls (run CART_REFRESH (initWidget this ⟨h, []⟩) evs).trace).length =
      (evs.filter Event.isClick).length ∧
    (outcomes (run CART_REFRESH (initWidget this ⟨h, []⟩) evs).trace).length ≤
      ((evs.filterMap Event.settles).filter fun k =>
        decide (k < (calls (run CART_REFRESH (initWidget this ⟨h, []⟩) evs).trace).length)).length := by
  induction evs using List.reverseRecOn with
  | nil =>
    refine ⟨inv_init hw, ?_, ?_⟩
    · simp [run, initWidget, calls]
    · simp [run, initWidget, outcomes]
  | append_singleton l e ih =>
    rw [run_append, run_singleton]
    generalize run CART_REFRESH (initWidget this ⟨h, []⟩) l = w at ih
    obtain ⟨h', t'⟩ := w
    obtain ⟨hi, hc, ho⟩ := ih
    simp only at hc ho
    cases e with
    | click ev =>
      refine ⟨inv_click hi _ _, ?_, ?_⟩
      · rw [step_click hi]
        simp [calls_append, hc, calls_clientCall, Event.isClick]
      · rw [step_click hi]
        simp only [calls_append, outcomes_append, List.length_append, calls_clientCall,
          outcomes_clientCall, List.length_nil, List.length_cons, Nat.add_zero,
          List.filterMap_append, List.filterMap_cons, List.filterMap_nil, Event.settles,
          List.append_nil]
        exact Nat.le_trans ho (filter_lt_succ_le _ _)
    | succeed k data =>
      rcases step_succeed_cases hi CART_REFRESH k data with hs | ⟨hk, x, hs⟩
      · rw [hs]
        refine ⟨hi, ?_, ?_⟩
        · simp [hc, Event.isClick]
        · simp only [List.filterMap_append, List.filter_append, List.length_append]
          exact Nat.le_trans ho (Nat.le_add_right _ _)
      · rw [hs]
        refine ⟨inv_trace_append hi _ (by simp [listeners]) (calls_publish _ _), ?_, ?_⟩
        · simp [calls_append, hc, calls_publish, Event.isClick]
        · simp only [calls_append, outcomes_append, List.length_append, List.filterMap_append,
            List.filter_append, calls_publish, outcomes_publish, List.append_nil,
            List.filterMap_cons, List.filterMap_nil, Event.settles, List.filter_cons,
            List.filter_nil, hk, decide_True, if_true, List.length_cons, List.length_nil]
          exact Nat.succ_le_succ ho
    | fail k resp =>
      rcases Nat.lt_or_ge k (calls t').length with hk | hk
      · rw [step_fail hi _ hk]
        refine ⟨inv_trace_append hi _ (by simp [listeners]) (calls_consoleWarn _), ?_, ?_⟩
        · simp [calls_append, hc, calls_consoleWarn, Event.isClick]
        · simp only [calls_append, outcomes_append, List.length_append, List.filterMap_append,
            List.filter_append, calls_consoleWarn, outcomes_consoleWarn, List.append_nil,
            List.filterMap_cons, List.filterMap_nil, Event.settles, List.filter_cons,
            List.filter_nil, hk, decide_True, if_true, List.length_cons, List.length_nil]
          exact Nat.succ_le_succ ho
      · rw [(step_settle_none _ h' t' k hk resp).2]
        refine ⟨hi, ?_, ?_⟩
        · simp [hc, Event.isClick]
        · simp only [List.filterMap_append, List.filter_append, List.length_append]
          exact Nat.le_trans ho (Nat.le_add_right _ _)
    | hostAlloc props =>
      refine ⟨inv_heap_append hi _, ?_, ?_⟩
      · simp [step, hc, Event.isClick]
      · simp only [step, List.filterMap_append, List.filter_append, List.length_append]
        exact Nat.le_trans ho (Nat.le_add_right _ _)

/-! ## Frame: the heap only grows -/

theorem turn_heap (CART_REFRESH f arg : JsVal) (w : World) :
    ∃ extra, (turn CART_REFRESH f arg w).heap = w.heap ++ extra := by
  unfold turn
  cases hinv : invoke CART_REFRESH f arg w with
  | error e => exact ⟨[], by simp⟩
  | ok w' =>
    simp only
    unfold invoke at hinv
    cases f with
    | ref a =>
      simp only at hinv
      cases hcell : w.heap[a]? with
      | none => rw [hcell] at hinv; cases hinv
      | some c =>
        rw [hcell] at hinv
        cases c with
        | obj ps => cases hinv
        | closure code self =>
          simp only at hinv
          cases code with
          | clickListener =>
            simp only [applyLambda] at hinv
            rcases clear_cases self w with ⟨e, he⟩ | ⟨pl, hp⟩
            · rw [he] at hinv; cases hinv
            · rw [hp] at hinv
              cases hinv
              exact ⟨_, rfl⟩
          | onSuccess =>
            simp only [applyLambda] at hinv
            rcases onClearSucceed_cases CART_REFRESH self arg w with ⟨e, he⟩ | ⟨c, x, hp⟩
            · rw [he] at hinv; cases hinv
            · rw [hp] at hinv
              cases hinv
              exact ⟨[], by simp⟩
          | onFailure =>
            simp only [applyLambda, _onClearFailed] at hinv
            cases hinv
            exact ⟨[], by simp⟩
    | null => cases hinv
    | undefined => cases hinv
    | bool b => cases hinv
    | num n => cases hinv
    | str s => cases hinv

theorem foldl_turn_heap (CART_REFRESH arg : JsVal) (fs : List JsVal) (w : World) :
    ∃ extra, (fs.foldl (fun w' f => turn CART_REFRESH f arg w') w).heap = w.heap ++ extra := by
  induction fs generalizing w with
  | nil => exact ⟨[], by simp⟩
  | cons f fs ih =>
    obtain ⟨e1, h1⟩ := turn_heap CART_REFRESH f arg w
    obtain ⟨e2, h2⟩ := ih (turn CART_REFRESH f arg w)
    exact ⟨e1 ++ e2, by rw [List.foldl_cons, h2, h1, List.append_assoc]⟩

theorem step_heap (CART_REFRESH : JsVal) (w : World) (e : Event) :
    ∃ extra, (step CART_REFRESH w e).heap = w.heap ++ extra := by
  cases e with
  | click ev => exact foldl_turn_heap CART_REFRESH ev _ w
  | succeed k data =>
    simp only [step]
    cases (calls w.trace)[k]? with
    | none => exact ⟨[], by simp⟩
    | some c => exact turn_heap _ _ _ _
  | fail k resp =>
    simp only [step]
    cases (calls w.trace)[k]? with
    | none => exact ⟨[], by simp⟩
    | some c => exact turn_heap _ _ _ _
  | hostAlloc props => exact ⟨_, rfl⟩

theorem run_heap (CART_REFRESH : JsVal) (w : World) (evs : List Event) :
    ∃ extra, (run CART_REFRESH w evs).heap = w.heap ++ extra := by
  induction evs generalizing w with
  | nil => exact ⟨[], by simp [run]⟩
  | cons e evs ih =>
    obtain ⟨e1, h1⟩ := step_heap CART_REFRESH w e
    obtain ⟨e2, h2⟩ := ih (step CART_REFRESH w e)
    refine ⟨e1 ++ e2, ?_⟩
    have : run CART_REFRESH w (e :: evs) = run CART_REFRESH (step CART_REFRESH w e) evs := rfl
    rw [this, h2, h1, List.append_assoc]

/-! ## Runs without a click, and counting settlements -/

theorem run_no_click_trace (CART_REFRESH : JsVal) (evs : List Event)
    (hn : ∀ e ∈ evs, Event.isClick e = false) (w : World) (hc : calls w.trace = []) :
    (run CART_REFRESH w evs).trace = w.trace := by
  induction evs generalizing w with
  | nil => rfl
  | cons e evs ih =>
    have hrun : run CART_REFRESH w (e :: evs) = run CART_REFRESH (step CART_REFRESH w e) evs :=
      rfl
    have hstep : (step CART_REFRESH w e).trace = w.trace := by
      cases e with
      | click ev =>
        have := hn (Event.click ev) (List.mem_cons_self _ _)
        simp [Event.isClick] at this
      | succeed k data => simp [step, hc]
      | fail k resp => simp [step, hc]
      | hostAlloc props => rfl
    rw [hrun, ih (fun e he => hn e (List.mem_cons_of_mem _ he)) _ (by rw [hstep]; exact hc), hstep]

theorem length_filter_lt_le (l : List Nat) (hl : l.Nodup) (n : Nat) :
    (l.filter fun k => decide (k < n)).length ≤ n := by
  have hsub : (l.filter fun k => decide (k < n)) ⊆ List.range n := by
    intro x hx
    have := (List.mem_filter.mp hx).2
    simp only [decide_eq_true_eq] at this
    exact List.mem_range.mpr this
  have := (List.subperm_of_subset (hl.filter _) hsub).length_le
  simpa using this

/-! ## The claims -/

/-- C1: for every configuration whose cart, scope and username are non-null, the
click listener runs `clear`, and `clear` appends exactly one host call to the
trace: the remote call with method "POST", endpoint "shopping_cart_clear" and a
newly allocated payload whose only fields are cart, scope and username, each with
the configured value.  Nothing is published and nothing is logged. -/
theorem clear_issues_exactly_one_call (CART_REFRESH ev : JsVal) (h : Heap) (t : List Effect)
    (this oa : Addr) (cfg : Obj) (hw : WidgetAt h this oa cfg)
    (_hcart : field cfg "cart" ≠ JsVal.null) (_hscope : field cfg "scope" ≠ JsVal.null)
    (_huser : field cfg "username" ≠ JsVal.null) :
    applyLambda CART_REFRESH Lambda.clickListener this ev ⟨h, t⟩ = clear this ⟨h, t⟩ ∧
    clear this ⟨h, t⟩ = Except.ok
      ⟨h ++ [Cell.obj [("cart", field cfg "cart"), ("scope", field cfg "scope"),
                       ("username", field cfg "username")],
             Cell.closure Lambda.onSuccess this, Cell.closure Lambda.onFailure this],
       t ++ [Effect.clientCall (JsVal.str "POST") (JsVal.str "shopping_cart_clear")
              (JsVal.ref h.length) (JsVal.ref (h.length + 1)) (JsVal.ref (h.length + 2))]⟩ :=
  ⟨rfl, clear_eq hw t⟩

/-- Instance of C1 on the page of the scenario. -/
theorem clear_issues_exactly_one_call_witness :
    WidgetAt demoHeap 0 1 demoCfg ∧ field demoCfg "cart" ≠ JsVal.null ∧
    field demoCfg "scope" ≠ JsVal.null ∧ field demoCfg "username" ≠ JsVal.null ∧
    clear 0 ⟨demoHeap, []⟩ = Except.ok
      ⟨demoHeap ++ [Cell.obj [("cart", JsVal.str "cart-1"), ("scope", JsVal.str "org-a"),
                              ("username", JsVal.str "alice")],
             Cell.closure Lambda.onSuccess 0, Cell.closure Lambda.onFailure 0],
       [Effect.clientCall (JsVal.str "POST") (JsVal.str "shopping_cart_clear")
              (JsVal.ref 2) (JsVal.ref 3) (JsVal.ref 4)]⟩ :=
  ⟨demo_widgetAt, by decide, by decide, by decide,
   (clear_issues_exactly_one_call demoEvent JsVal.undefined demoHeap [] 0 1 demoCfg
      demo_widgetAt (by decide) (by decide) (by decide)).2⟩

/-- C2: for every configured cart and every value X, `_onClearSucceed` applied to a
response object whose `result` field is X appends exactly one host call to the
trace, the broadcast of `CART_REFRESH` with the two arguments (cart, X); the heap
is untouched, no remote call is issued and nothing is logged. -/
theorem onClearSucceed_broadcasts_once (CART_REFRESH : JsVal) (h : Heap) (t : List Effect)
    (this oa : Addr) (cfg : Obj) (data X : JsVal) (hw : WidgetAt h this oa cfg)
    (hd : IsResponse h data X) :
    _onClearSucceed CART_REFRESH this data ⟨h, t⟩ = Except.ok
      ⟨h, t ++ [Effect.publish CART_REFRESH [field cfg "cart", X]]⟩ :=
  onClearSucceed_eq hw _ _ _ (getProp_of_isResponse hd) t

/-- Instance of C2: the response `{result: 7}` on the page of the scenario. -/
theorem onClearSucceed_broadcasts_once_witness :
    WidgetAt (demoHeap ++ [Cell.obj [("result", JsVal.num 7)]]) 0 1 demoCfg ∧
    IsResponse (demoHeap ++ [Cell.obj [("result", JsVal.num 7)]]) (JsVal.ref 2) (JsVal.num 7) ∧
    _onClearSucceed demoEvent 0 (JsVal.ref 2)
        ⟨demoHeap ++ [Cell.obj [("result", JsVal.num 7)]], []⟩ = Except.ok
      ⟨demoHeap ++ [Cell.obj [("result", JsVal.num 7)]],
       [Effect.publish demoEvent [JsVal.str "cart-1", JsVal.num 7]]⟩ :=
  ⟨widgetAt_append demo_widgetAt _, ⟨2, _, rfl, rfl, rfl⟩,
   onClearSucceed_broadcasts_once demoEvent _ [] 0 1 demoCfg (JsVal.ref 2) (JsVal.num 7)
     (widgetAt_append demo_widgetAt _) ⟨2, _, rfl, rfl, rfl⟩⟩

/-- C3: for every failure response E, whatever it is, `_onClearFailed` (and the
failure continuation, which cannot throw) appends exactly one host call to the
trace, `console.warn(E)`; nothing is broadcast and the heap is untouched. -/
theorem onClearFailed_warns_once (CART_REFRESH : JsVal) (this : Addr) (E : JsVal) (h : Heap)
    (t : List Effect) :
    _onClearFailed this E ⟨h, t⟩ = ⟨h, t ++ [Effect.consoleWarn [E]]⟩ ∧
    applyLambda CART_REFRESH Lambda.onFailure this E ⟨h, t⟩ =
      Except.ok ⟨h, t ++ [Effect.consoleWarn [E]]⟩ :=
  ⟨rfl, rfl⟩

/-- C7: `clear` validates nothing.  For every configuration object whatsoever it
returns normally and issues the remote call with the configured values forwarded
as they are (an absent field reads as `undefined`); with the default options the
payload is `{cart: null, scope: null, username: null}`. -/
theorem clear_forwards_any_configuration (h : Heap) (t : List Effect) (this oa : Addr)
    (cfg : Obj) (hw : WidgetAt h this oa cfg) :
    clear this ⟨h, t⟩ = Except.ok
      ⟨h ++ [Cell.obj [("cart", field cfg "cart"), ("scope", field cfg "scope"),
                       ("username", field cfg "username")],
             Cell.closure Lambda.onSuccess this, Cell.closure Lambda.onFailure this],
       t ++ [Effect.clientCall (JsVal.str "POST") (JsVal.str "shopping_cart_clear")
              (JsVal.ref h.length) (JsVal.ref (h.length + 1)) (JsVal.ref (h.length + 2))]⟩ ∧
    (cfg = options →
      clear this ⟨h, t⟩ = Except.ok
        ⟨h ++ [Cell.obj [("cart", JsVal.null), ("scope", JsVal.null),
                         ("username", JsVal.null)],
               Cell.closure Lambda.onSuccess this, Cell.closure Lambda.onFailure this],
         t ++ [Effect.clientCall (JsVal.str "POST") (JsVal.str "shopping_cart_clear")
                (JsVal.ref h.length) (JsVal.ref (h.length + 1))
                (JsVal.ref (h.length + 2))]⟩) := by
  refine ⟨clear_eq hw t, ?_⟩
  intro hcfg
  subst hcfg
  exact clear_eq hw t

/-- Instance of C7: a widget left with the default options. -/
theorem clear_forwards_any_configuration_witness :
    WidgetAt [Cell.obj [("options", JsVal.ref 1)], Cell.obj options] 0 1 options ∧
    clear 0 ⟨[Cell.obj [("options", JsVal.ref 1)], Cell.obj options], []⟩ = Except.ok
      ⟨[Cell.obj [("options", JsVal.ref 1)], Cell.obj options,
        Cell.obj [("cart", JsVal.null), ("scope", JsVal.null), ("username", JsVal.null)],
        Cell.closure Lambda.onSuccess 0, Cell.closure Lambda.onFailure 0],
       [Effect.clientCall (JsVal.str "POST") (JsVal.str "shopping_cart_clear")
          (JsVal.ref 2) (JsVal.ref 3) (JsVal.ref 4)]⟩ :=
  ⟨⟨⟨_, rfl, rfl⟩, rfl⟩,
   (clear_forwards_any_configuration [Cell.obj [("options", JsVal.ref 1)], Cell.obj options]
      [] 0 1 options ⟨⟨_, rfl, rfl⟩, rfl⟩).2 rfl⟩

/-- C10: the broadcast depends only on the configured cart and on the `result` field
of the response.  Two runs of `_onClearSucceed`, on any two widgets whose configured
carts are equal (scope, username and everything else may differ) and any two
responses whose `result` fields are equal (their other fields may differ), append
one and the same broadcast. -/
theorem onClearSucceed_depends_on_cart_and_result (CART_REFRESH : JsVal) (h1 h2 : Heap)
    (t1 t2 : List Effect) (this1 this2 oa1 oa2 : Addr) (cfg1 cfg2 : Obj) (d1 d2 x : JsVal)
    (hw1 : WidgetAt h1 this1 oa1 cfg1) (hw2 : WidgetAt h2 this2 oa2 cfg2)
    (hcart : field cfg1 "cart" = field cfg2 "cart")
    (hx1 : getProp h1 d1 "result" = Except.ok x) (hx2 : getProp h2 d2 "result" = Except.ok x) :
    ∃ b, _onClearSucceed CART_REFRESH this1 d1 ⟨h1, t1⟩ = Except.ok ⟨h1, t1 ++ [b]⟩ ∧
         _onClearSucceed CART_REFRESH this2 d2 ⟨h2, t2⟩ = Except.ok ⟨h2, t2 ++ [b]⟩ ∧
         b = Effect.publish CART_REFRESH [field cfg1 "cart", x] := by
  refine ⟨_, onClearSucceed_eq hw1 _ _ _ hx1 t1, ?_, rfl⟩
  rw [hcart]
  exact onClearSucceed_eq hw2 _ _ _ hx2 t2

/-- C4: the continuations `clear` hands to the client are wired to the right
handlers.  After `clear`, and whatever the host has allocated since, calling the
4th argument of the remote call with a response whose `result` is X appends
exactly the broadcast of (cart, X), and calling the 5th argument with E appends
exactly `console.warn(E)`. -/
theorem continuations_are_wired (CART_REFRESH : JsVal) (h : Heap) (t : List Effect)
    (this oa : Addr) (cfg : Obj) (extra : List Cell) (data X E : JsVal)
    (hw : WidgetAt h this oa cfg)
    (hd : IsResponse
      (h ++ [Cell.obj (payloadOf cfg), Cell.closure Lambda.onSuccess this,
             Cell.closure Lambda.onFailure this] ++ extra) data X) :
    clear this ⟨h, t⟩ = Except.ok
      ⟨h ++ [Cell.obj (payloadOf cfg), Cell.closure Lambda.onSuccess this,
             Cell.closure Lambda.onFailure this],
       t ++ [Effect.clientCall (JsVal.str "POST") (JsVal.str "shopping_cart_clear")
              (JsVal.ref h.length) (JsVal.ref (h.length + 1)) (JsVal.ref (h.length + 2))]⟩ ∧
    invoke CART_REFRESH (JsVal.ref (h.length + 1)) data
      ⟨h ++ [Cell.obj (payloadOf cfg), Cell.closure Lambda.onSuccess this,
             Cell.closure Lambda.onFailure this] ++ extra,
       t ++ [Effect.clientCall (JsVal.str "POST") (JsVal.str "shopping_cart_clear")
              (JsVal.ref h.length) (JsVal.ref (h.length + 1)) (JsVal.ref (h.length + 2))]⟩ =
      Except.ok
      ⟨h ++ [Cell.obj (payloadOf cfg), Cell.closure Lambda.onSuccess this,
             Cell.closure Lambda.onFailure this] ++ extra,
       t ++ [Effect.clientCall (JsVal.str "POST") (JsVal.str "shopping_cart_clear")
              (JsVal.ref h.length) (JsVal.ref (h.length + 1)) (JsVal.ref (h.length + 2))] ++
         [Effect.publish CART_REFRESH [field cfg "cart", X]]⟩ ∧
    invoke CART_REFRESH (JsVal.ref (h.length + 2)) E
      ⟨h ++ [Cell.obj (payloadOf cfg), Cell.closure Lambda.onSuccess this,
             Cell.closure Lambda.onFailure this] ++ extra,
       t ++ [Effect.clientCall (JsVal.str "POST") (JsVal.str "shopping_cart_clear")
              (JsVal.ref h.length) (JsVal.ref (h.length + 1)) (JsVal.ref (h.length + 2))]⟩ =
      Except.ok
      ⟨h ++ [Cell.obj (payloadOf cfg), Cell.closure Lambda.onSuccess this,
             Cell.closure Lambda.onFailure this] ++ extra,
       t ++ [Effect.clientCall (JsVal.str "POST") (JsVal.str "shopping_cart_clear")
              (JsVal.ref h.length) (JsVal.ref (h.length + 1)) (JsVal.ref (h.length + 2))] ++
         [Effect.consoleWarn [E]]⟩ := by
  have hal := getElem?_alloc h (Cell.obj (payloadOf cfg)) (Cell.closure Lambda.onSuccess this)
    (Cell.closure Lambda.onFailure this)
  have hs := getElem?_append_of_some hal.2.1 extra
  have hf := getElem?_append_of_some hal.2.2 extra
  have hw2 := widgetAt_append (widgetAt_append hw [Cell.obj (payloadOf cfg),
    Cell.closure Lambda.onSuccess this, Cell.closure Lambda.onFailure this]) extra
  refine ⟨clear_eq hw t, ?_, ?_⟩
  · simp only [invoke, hs, applyLambda]
    exact onClearSucceed_eq hw2 _ _ _ (getProp_of_isResponse hd) _
  · simp only [invoke, hf, applyLambda, _onClearFailed]

/-- The two end-to-end scenarios of C4: configuration
`{cart: "cart-1", scope: "org-a", username: "alice"}`, one click, then success
with `{result: {items: []}}`, respectively failure with `{error: "forbidden"}`. -/
theorem continuations_are_wired_witness :
    WidgetAt demoHeap 0 1 demoCfg ∧
    IsResponse
      (demoHeap ++ [Cell.obj (payloadOf demoCfg), Cell.closure Lambda.onSuccess 0,
             Cell.closure Lambda.onFailure 0] ++ demoResponses 5) (JsVal.ref 7) (JsVal.ref 6) ∧
    (clear 0 ⟨demoHeap, []⟩ = Except.ok
      ⟨demoHeap ++ [Cell.obj (payloadOf demoCfg), Cell.closure Lambda.onSuccess 0,
             Cell.closure Lambda.onFailure 0],
       [] ++ [Effect.clientCall (JsVal.str "POST") (JsVal.str "shopping_cart_clear")
              (JsVal.ref 2) (JsVal.ref 3) (JsVal.ref 4)]⟩ ∧
    invoke demoEvent (JsVal.ref 3) (JsVal.ref 7)
      ⟨demoHeap ++ [Cell.obj (payloadOf demoCfg), Cell.closure Lambda.onSuccess 0,
             Cell.closure Lambda.onFailure 0] ++ demoResponses 5,
       [] ++ [Effect.clientCall (JsVal.str "POST") (JsVal.str "shopping_cart_clear")
              (JsVal.ref 2) (JsVal.ref 3) (JsVal.ref 4)]⟩ =
      Except.ok
      ⟨demoHeap ++ [Cell.obj (payloadOf demoCfg), Cell.closure Lambda.onSuccess 0,
             Cell.closure Lambda.onFailure 0] ++ demoResponses 5,
       [] ++ [Effect.clientCall (JsVal.str "POST") (JsVal.str "shopping_cart_clear")
              (JsVal.ref 2) (JsVal.ref 3) (JsVal.ref 4)] ++
         [Effect.publish demoEvent [JsVal.str "cart-1", JsVal.ref 6]]⟩ ∧
    invoke demoEvent (JsVal.ref 4) (JsVal.ref 8)
      ⟨demoHeap ++ [Cell.obj (payloadOf demoCfg), Cell.closure Lambda.onSuccess 0,
             Cell.closure Lambda.onFailure 0] ++ demoResponses 5,
       [] ++ [Effect.clientCall (JsVal.str "POST") (JsVal.str "shopping_cart_clear")
              (JsVal.ref 2) (JsVal.ref 3) (JsVal.ref 4)]⟩ =
      Except.ok
      ⟨demoHeap ++ [Cell.obj (payloadOf demoCfg), Cell.closure Lambda.onSuccess 0,
             Cell.closure Lambda.onFailure 0] ++ demoResponses 5,
       [] ++ [Effect.clientCall (JsVal.str "POST") (JsVal.str "shopping_cart_clear")
              (JsVal.ref 2) (JsVal.ref 3) (JsVal.ref 4)] ++
         [Effect.consoleWarn [JsVal.ref 8]]⟩) ∧
    (run demoEvent (initWidget 0 ⟨demoHeap, []⟩)
        [Event.click JsVal.undefined, Event.hostAlloc [],
         Event.hostAlloc [("items", JsVal.ref 6)], Event.hostAlloc [("result", JsVal.ref 7)],
         Event.succeed 0 (JsVal.ref 8)]).trace =
      [Effect.elOn (JsVal.str "click") (JsVal.ref 2),
       Effect.clientCall (JsVal.str "POST") (JsVal.str "shopping_cart_clear")
         (JsVal.ref 3) (JsVal.ref 4) (JsVal.ref 5),
       Effect.publish demoEvent [JsVal.str "cart-1", JsVal.ref 7]] ∧
    (run demoEvent (initWidget 0 ⟨demoHeap, []⟩)
        [Event.click JsVal.undefined, Event.hostAlloc [("error", JsVal.str "forbidden")],
         Event.fail 0 (JsVal.ref 6)]).trace =
      [Effect.elOn (JsVal.str "click") (JsVal.ref 2),
       Effect.clientCall (JsVal.str "POST") (JsVal.str "shopping_cart_clear")
         (JsVal.ref 3) (JsVal.ref 4) (JsVal.ref 5),
       Effect.consoleWarn [JsVal.ref 6]] :=
  ⟨demo_widgetAt, ⟨7, _, rfl, rfl, rfl⟩,
   continuations_are_wired demoEvent demoHeap [] 0 1 demoCfg (demoResponses 5) (JsVal.ref 7)
     (JsVal.ref 6) (JsVal.ref 8) demo_widgetAt ⟨7, _, rfl, rfl, rfl⟩,
   by decide, by decide⟩

/-- C5: `initialize` allocates the click listener and makes one host call, the
registration of that listener for "click" on the bound element.  In every run
after it that contains no click, whatever the client or the host does, the trace
stays as `initialize` left it: no remote call, no broadcast, no log entry. -/
theorem initialize_issues_no_call (CART_REFRESH : JsVal) (this : Addr) (h : Heap)
    (t : List Effect) (evs : List Event) (hc : calls t = [])
    (hn : ∀ e ∈ evs, Event.isClick e = false) :
    initWidget this ⟨h, t⟩ =
      ⟨h ++ [Cell.closure Lambda.clickListener this],
       t ++ [Effect.elOn (JsVal.str "click") (JsVal.ref h.length)]⟩ ∧
    (run CART_REFRESH (initWidget this ⟨h, t⟩) evs).trace =
      t ++ [Effect.elOn (JsVal.str "click") (JsVal.ref h.length)] := by
  refine ⟨rfl, ?_⟩
  rw [run_no_click_trace CART_REFRESH evs hn]
  · rfl
  · simp only [initWidget, calls_append, hc]
    rfl

/-- Instance of C5: settlements and host allocations, but no click. -/
theorem initialize_issues_no_call_witness :
    calls [] = [] ∧
    (∀ e ∈ [Event.succeed 0 JsVal.null, Event.fail 0 (JsVal.str "x"), Event.hostAlloc []],
      Event.isClick e = false) ∧
    (run demoEvent (initWidget 0 ⟨demoHeap, []⟩)
        [Event.succeed 0 JsVal.null, Event.fail 0 (JsVal.str "x"), Event.hostAlloc []]).trace =
      [] ++ [Effect.elOn (JsVal.str "click") (JsVal.ref 2)] :=
  ⟨rfl, by decide,
   (initialize_issues_no_call demoEvent 0 demoHeap []
      [Event.succeed 0 JsVal.null, Event.fail 0 (JsVal.str "x"), Event.hostAlloc []] rfl
      (by decide)).2⟩

theorem nodup_call_objects (ps : List Addr) (hp : ps.Pairwise fun p q => p + 3 ≤ q) :
    ((ps.map callAt).flatMap fun c => [c.payload, c.onSuccess, c.onFailure]).Nodup := by
  rw [List.nodup_flatMap]
  constructor
  · intro c hc
    obtain ⟨p, _, rfl⟩ := List.mem_map.mp hc
    simp [callAt]
  · rw [List.pairwise_map]
    refine hp.imp ?_
    intro p q hpq
    have hpq' : (p : Nat) + 3 ≤ q := hpq
    simp only [Function.onFun, callAt, List.disjoint_cons_left, List.mem_cons, JsVal.ref.injEq,
      List.mem_singleton, List.disjoint_nil_left, and_true, List.not_mem_nil, or_false]
    have key : ∀ a b : Nat, a + 3 ≤ b →
        ¬(a = b ∨ a = b + 1 ∨ a = b + 2) ∧ ¬(a + 1 = b ∨ a + 1 = b + 1 ∨ a + 1 = b + 2) ∧
        ¬(a + 2 = b ∨ a + 2 = b + 1 ∨ a + 2 = b + 2) := by
      intro a b hab
      omega
    exact key p q hpq'

/-- C6: no de-duplication, debouncing or locking.  In every world reached from a
freshly initialised widget by any sequence of clicks, settlements and host
allocations, in any order:
the number of remote calls issued equals the number of clicks;
every call is a POST to "shopping_cart_clear" whose payload is an object with
exactly the configured cart, scope and username, and whose continuations are the
success and failure arrow functions of this widget;
the payloads and continuations of all the calls are pairwise distinct objects;
settling any issued call with a response whose `result` is x appends exactly one
broadcast of (cart, x), and settling it with a failure appends exactly one
warning. -/
theorem clicks_issue_independent_calls (CART_REFRESH : JsVal) (h : Heap) (this oa : Addr)
    (cfg : Obj) (evs : List Event) (hw : WidgetAt h this oa cfg) :
    (calls (run CART_REFRESH (initWidget this ⟨h, []⟩) evs).trace).length =
      (evs.filter Event.isClick).length ∧
    (∀ c ∈ calls (run CART_REFRESH (initWidget this ⟨h, []⟩) evs).trace,
      c.method = JsVal.str "POST" ∧ c.endpoint = JsVal.str "shopping_cart_clear" ∧
      ∃ p, c.payload = JsVal.ref p ∧ c.onSuccess = JsVal.ref (p + 1) ∧
        c.onFailure = JsVal.ref (p + 2) ∧
        (run CART_REFRESH (initWidget this ⟨h, []⟩) evs).heap[p]? =
          some (Cell.obj [("cart", field cfg "cart"), ("scope", field cfg "scope"),
                          ("username", field cfg "username")]) ∧
        (run CART_REFRESH (initWidget this ⟨h, []⟩) evs).heap[p + 1]? =
          some (Cell.closure Lambda.onSuccess this) ∧
        (run CART_REFRESH (initWidget this ⟨h, []⟩) evs).heap[p + 2]? =
          some (Cell.closure Lambda.onFailure this)) ∧
    ((calls (run CART_REFRESH (initWidget this ⟨h, []⟩) evs).trace).flatMap
      fun c => [c.payload, c.onSuccess, c.onFailure]).Nodup ∧
    (∀ k data x, k < (calls (run CART_REFRESH (initWidget this ⟨h, []⟩) evs).trace).length →
      getProp (run CART_REFRESH (initWidget this ⟨h, []⟩) evs).heap data "result" =
        Except.ok x →
      step CART_REFRESH (run CART_REFRESH (initWidget this ⟨h, []⟩) evs)
          (Event.succeed k data) =
        ⟨(run CART_REFRESH (initWidget this ⟨h, []⟩) evs).heap,
         (run CART_REFRESH (initWidget this ⟨h, []⟩) evs).trace ++
           [Effect.publish CART_REFRESH [field cfg "cart", x]]⟩) ∧
    (∀ k resp, k < (calls (run CART_REFRESH (initWidget this ⟨h, []⟩) evs).trace).length →
      step CART_REFRESH (run CART_REFRESH (initWidget this ⟨h, []⟩) evs) (Event.fail k resp) =
        ⟨(run CART_REFRESH (initWidget this ⟨h, []⟩) evs).heap,
         (run CART_REFRESH (initWidget this ⟨h, []⟩) evs).trace ++
           [Effect.consoleWarn [resp]]⟩) := by
  obtain ⟨hi, hc, _⟩ := run_inv hw CART_REFRESH evs
  generalize run CART_REFRESH (initWidget this ⟨h, []⟩) evs = w at hi hc ⊢
  obtain ⟨h', t'⟩ := w
  obtain ⟨ps, h1, h2, h3⟩ := hi.issued
  simp only at h1 h3 hc ⊢
  refine ⟨hc, ?_, ?_, ?_, ?_⟩
  · intro c hcm
    rw [h1] at hcm
    obtain ⟨p, hp, rfl⟩ := List.mem_map.mp hcm
    obtain ⟨_, a, b, d⟩ := h3 p hp
    exact ⟨rfl, rfl, p, rfl, rfl, rfl, a, b, d⟩
  · rw [h1]
    exact nodup_call_objects ps h2
  · intro k data x hk hx
    exact step_succeed hi CART_REFRESH hk hx
  · intro k resp hk
    exact step_fail hi CART_REFRESH hk resp

/-- Instance of C6: two clicks, the second call fails before the first succeeds. -/
theorem clicks_issue_independent_calls_witness :
    WidgetAt demoHeap 0 1 demoCfg ∧
    (calls (run demoEvent (initWidget 0 ⟨demoHeap, []⟩)
      [Event.click JsVal.undefined, Event.click JsVal.undefined,
       Event.fail 1 (JsVal.str "timeout"), Event.hostAlloc [("result", JsVal.num 0)],
       Event.succeed 0 (JsVal.ref 9)]).trace).length = 2 ∧
    (run demoEvent (initWidget 0 ⟨demoHeap, []⟩)
      [Event.click JsVal.undefined, Event.click JsVal.undefined,
       Event.fail 1 (JsVal.str "timeout"), Event.hostAlloc [("result", JsVal.num 0)],
       Event.succeed 0 (JsVal.ref 9)]).trace =
      [Effect.elOn (JsVal.str "click") (JsVal.ref 2),
       Effect.clientCall (JsVal.str "POST") (JsVal.str "shopping_cart_clear")
         (JsVal.ref 3) (JsVal.ref 4) (JsVal.ref 5),
       Effect.clientCall (JsVal.str "POST") (JsVal.str "shopping_cart_clear")
         (JsVal.ref 6) (JsVal.ref 7) (JsVal.ref 8),
       Effect.consoleWarn [JsVal.str "timeout"],
       Effect.publish demoEvent [JsVal.str "cart-1", JsVal.num 0]] :=
  ⟨demo_widgetAt,
   (clicks_issue_independent_calls demoEvent demoHeap 0 1 demoCfg
      [Event.click JsVal.undefined, Event.click JsVal.undefined,
       Event.fail 1 (JsVal.str "timeout"), Event.hostAlloc [("result", JsVal.num 0)],
       Event.succeed 0 (JsVal.ref 9)] demo_widgetAt).1,
   by decide⟩

/-- C8, as the code has it: no retry, and one outcome per settlement rather than per
invocation.  The widget keeps no record of which calls have settled, so a call
whose continuations the client invokes twice produces two outcomes.  Here one
click issues one call; the client then invokes its success continuation and
afterwards its failure continuation; a broadcast and a warning are both made, two
outcomes for one invocation of `clear`. -/
theorem at_most_one_outcome_counterexample :
    calls (run demoEvent (initWidget 0 ⟨demoHeap, []⟩)
      [Event.click JsVal.undefined, Event.hostAlloc [("result", JsVal.num 0)],
       Event.succeed 0 (JsVal.ref 6), Event.fail 0 (JsVal.str "late")]).trace =
      [callAt 3] ∧
    outcomes (run demoEvent (initWidget 0 ⟨demoHeap, []⟩)
      [Event.click JsVal.undefined, Event.hostAlloc [("result", JsVal.num 0)],
       Event.succeed 0 (JsVal.ref 6), Event.fail 0 (JsVal.str "late")]).trace =
      [Effect.publish demoEvent [JsVal.str "cart-1", JsVal.num 0],
       Effect.consoleWarn [JsVal.str "late"]] ∧
    outcomes (run demoEvent (initWidget 0 ⟨demoHeap, []⟩)
      [Event.click JsVal.undefined, Event.fail 0 (JsVal.str "a"),
       Event.fail 0 (JsVal.str "b")]).trace =
      [Effect.consoleWarn [JsVal.str "a"], Effect.consoleWarn [JsVal.str "b"]] ∧
    ¬ ∀ evs : List Event,
      (outcomes (run demoEvent (initWidget 0 ⟨demoHeap, []⟩) evs).trace).length ≤
        (calls (run demoEvent (initWidget 0 ⟨demoHeap, []⟩) evs).trace).length := by
  refine ⟨by decide, by decide, by decide, ?_⟩
  intro hall
  have h2 := hall [Event.click JsVal.undefined, Event.fail 0 (JsVal.str "a"),
    Event.fail 0 (JsVal.str "b")]
  revert h2
  decide

/-- C8, amended: the widget never retries and fires at most one outcome for each
settlement the client delivers.  In the world reached by any run of a freshly
initialised widget, with no assumption on how often the client settles a call:
there are as many calls as clicks, so no call is ever issued by a handler;
there are at most as many outcomes (broadcasts and warnings) as settlements
delivered by the client, hence at most as many outcomes as calls whenever the
client settles each call at most once;
a click, that is an invocation of `clear`, fires no outcome by itself;
settling a call, with success or with failure, issues no remote call and adds at
most one outcome;
and, in any world at all, `_onClearSucceed` and `_onClearFailed` issue no remote
call and the failure continuation returns normally: it never throws. -/
theorem no_retry_one_outcome_per_settlement (CART_REFRESH : JsVal) (h : Heap)
    (this oa : Addr) (cfg : Obj) (evs : List Event) (hw : WidgetAt h this oa cfg) :
    (calls (run CART_REFRESH (initWidget this ⟨h, []⟩) evs).trace).length =
      (evs.filter Event.isClick).length ∧
    (outcomes (run CART_REFRESH (initWidget this ⟨h, []⟩) evs).trace).length ≤
      (evs.filterMap Event.settles).length ∧
    ((evs.filterMap Event.settles).Nodup →
      (outcomes (run CART_REFRESH (initWidget this ⟨h, []⟩) evs).trace).length ≤
        (calls (run CART_REFRESH (initWidget this ⟨h, []⟩) evs).trace).length) ∧
    (∀ ev, outcomes (step CART_REFRESH (run CART_REFRESH (initWidget this ⟨h, []⟩) evs)
        (Event.click ev)).trace =
      outcomes (run CART_REFRESH (initWidget this ⟨h, []⟩) evs).trace) ∧
    (∀ k v, calls (step CART_REFRESH (run CART_REFRESH (initWidget this ⟨h, []⟩) evs)
        (Event.succeed k v)).trace =
        calls (run CART_REFRESH (initWidget this ⟨h, []⟩) evs).trace ∧
      (outcomes (step CART_REFRESH (run CART_REFRESH (initWidget this ⟨h, []⟩) evs)
        (Event.succeed k v)).trace).length ≤
        (outcomes (run CART_REFRESH (initWidget this ⟨h, []⟩) evs).trace).length + 1) ∧
    (∀ k v, calls (step CART_REFRESH (run CART_REFRESH (initWidget this ⟨h, []⟩) evs)
        (Event.fail k v)).trace =
        calls (run CART_REFRESH (initWidget this ⟨h, []⟩) evs).trace ∧
      (outcomes (step CART_REFRESH (run CART_REFRESH (initWidget this ⟨h, []⟩) evs)
        (Event.fail k v)).trace).length ≤
        (outcomes (run CART_REFRESH (initWidget this ⟨h, []⟩) evs).trace).length + 1) ∧
    (∀ (self : Addr) (data : JsVal) (w w' : World),
      _onClearSucceed CART_REFRESH self data w = Except.ok w' →
      calls w'.trace = calls w.trace) ∧
    (∀ (self : Addr) (resp : JsVal) (w : World),
      calls (_onClearFailed self resp w).trace = calls w.trace ∧
      applyLambda CART_REFRESH Lambda.onFailure self resp w =
        Except.ok (_onClearFailed self resp w)) := by
  obtain ⟨hi, hc, ho⟩ := run_inv hw CART_REFRESH evs
  generalize run CART_REFRESH (initWidget this ⟨h, []⟩) evs = w at hi hc ho ⊢
  obtain ⟨h', t'⟩ := w
  simp only at hc ho ⊢
  refine ⟨hc, Nat.le_trans ho (List.length_filter_le _ _),
    fun hn => Nat.le_trans ho (length_filter_lt_le _ hn _), ?_, ?_, ?_, ?_, ?_⟩
  · intro ev
    rw [step_click hi]
    simp only [outcomes_append, outcomes_clientCall, List.append_nil]
  · intro k v
    rcases step_succeed_cases hi CART_REFRESH k v with hs | ⟨_, x, hs⟩
    · rw [hs]
      exact ⟨rfl, Nat.le_add_right _ _⟩
    · rw [hs]
      simp only [calls_append, calls_publish, List.append_nil, outcomes_append,
        outcomes_publish, List.length_append, List.length_cons, List.length_nil]
      exact ⟨trivial, Nat.le_refl _⟩
  · intro k v
    rcases Nat.lt_or_ge k (calls t').length with hk | hk
    · rw [step_fail hi _ hk]
      simp only [calls_append, calls_consoleWarn, List.append_nil, outcomes_append,
        outcomes_consoleWarn, List.length_append, List.length_cons, List.length_nil]
      exact ⟨trivial, Nat.le_refl _⟩
    · rw [(step_settle_none _ h' t' k hk v).2]
      exact ⟨rfl, Nat.le_add_right _ _⟩
  · intro self data w w' hok
    rcases onClearSucceed_cases CART_REFRESH self data w with ⟨e, he⟩ | ⟨c, x, hp⟩
    · rw [he] at hok; cases hok
    · rw [hp] at hok
      cases hok
      simp only [calls_append, calls_publish, List.append_nil]
  · intro self resp w
    refine ⟨?_, rfl⟩
    simp only [_onClearFailed, calls_append, calls_consoleWarn, List.append_nil]

/-- Instance of the amended C8: two clicks, the first call settled twice.  Three
outcomes for three settlements and two calls. -/
theorem no_retry_one_outcome_per_settlement_witness :
    WidgetAt demoHeap 0 1 demoCfg ∧
    (calls (run demoEvent (initWidget 0 ⟨demoHeap, []⟩)
      [Event.click JsVal.undefined, Event.click JsVal.undefined,
       Event.fail 0 (JsVal.str "timeout"), Event.succeed 0 (JsVal.num 1),
       Event.fail 1 (JsVal.str "reset")]).trace).length =
      ([Event.click JsVal.undefined, Event.click JsVal.undefined,
        Event.fail 0 (JsVal.str "timeout"), Event.succeed 0 (JsVal.num 1),
        Event.fail 1 (JsVal.str "reset")].filter Event.isClick).length ∧
    (outcomes (run demoEvent (initWidget 0 ⟨demoHeap, []⟩)
      [Event.click JsVal.undefined, Event.click JsVal.undefined,
       Event.fail 0 (JsVal.str "timeout"), Event.succeed 0 (JsVal.num 1),
       Event.fail 1 (JsVal.str "reset")]).trace).length ≤
      ([Event.click JsVal.undefined, Event.click JsVal.undefined,
        Event.fail 0 (JsVal.str "timeout"), Event.succeed 0 (JsVal.num 1),
        Event.fail 1 (JsVal.str "reset")].filterMap Event.settles).length ∧
    outcomes (run demoEvent (initWidget 0 ⟨demoHeap, []⟩)
      [Event.click JsVal.undefined, Event.click JsVal.undefined,
       Event.fail 0 (JsVal.str "timeout"), Event.succeed 0 (JsVal.num 1),
       Event.fail 1 (JsVal.str "reset")]).trace =
      [Effect.consoleWarn [JsVal.str "timeout"],
       Effect.publish demoEvent [JsVal.str "cart-1", JsVal.undefined],
       Effect.consoleWarn [JsVal.str "reset"]] ∧
    (([Event.click JsVal.undefined, Event.fail 0 (JsVal.str "timeout")].filterMap
        Event.settles).Nodup ∧
      (outcomes (run demoEvent (initWidget 0 ⟨demoHeap, []⟩)
        [Event.click JsVal.undefined, Event.fail 0 (JsVal.str "timeout")]).trace).length ≤
      (calls (run demoEvent (initWidget 0 ⟨demoHeap, []⟩)
        [Event.click JsVal.undefined, Event.fail 0 (JsVal.str "timeout")]).trace).length) :=
  ⟨demo_widgetAt,
   (no_retry_one_outcome_per_settlement demoEvent demoHeap 0 1 demoCfg
      [Event.click JsVal.undefined, Event.click JsVal.undefined,
       Event.fail 0 (JsVal.str "timeout"), Event.succeed 0 (JsVal.num 1),
       Event.fail 1 (JsVal.str "reset")] demo_widgetAt).1,
   (no_retry_one_outcome_per_settlement demoEvent demoHeap 0 1 demoCfg
      [Event.click JsVal.undefined, Event.click JsVal.undefined,
       Event.fail 0 (JsVal.str "timeout"), Event.succeed 0 (JsVal.num 1),
       Event.fail 1 (JsVal.str "reset")] demo_widgetAt).2.1,
   by decide,
   by decide,
   (no_retry_one_outcome_per_settlement demoEvent demoHeap 0 1 demoCfg
      [Event.click JsVal.undefined, Event.fail 0 (JsVal.str "timeout")]
      demo_widgetAt).2.2.1 (by decide)⟩

/-- C9: the configuration is immutable and the payload is a fresh object.  None of
`initialize`, `clear`, `_onClearSucceed` and `_onClearFailed` changes the widget or
its options object: afterwards the widget still refers to the same options object
with the same properties.  The payload `clear` sends lives at an address that held
nothing before the call, so it is neither the options object nor the widget.  And
in every run, from any world, the heap only grows and the configuration stays as it
was. -/
theorem configuration_is_immutable (CART_REFRESH : JsVal) (h : Heap) (t : List Effect)
    (this oa : Addr) (cfg : Obj) (hw : WidgetAt h this oa cfg) :
    WidgetAt (initWidget this ⟨h, t⟩).heap this oa cfg ∧
    (∃ w', clear this ⟨h, t⟩ = Except.ok w' ∧ WidgetAt w'.heap this oa cfg ∧
      ∃ c, calls w'.trace = calls t ++ [c] ∧ c.payload = JsVal.ref h.length ∧
        h[h.length]? = none ∧ h.length ≠ oa ∧ h.length ≠ this ∧
        w'.heap[h.length]? =
          some (Cell.obj [("cart", field cfg "cart"), ("scope", field cfg "scope"),
                          ("username", field cfg "username")])) ∧
    (∀ data w', _onClearSucceed CART_REFRESH this data ⟨h, t⟩ = Except.ok w' → w'.heap = h) ∧
    (∀ resp, (_onClearFailed this resp ⟨h, t⟩).heap = h) ∧
    (∀ evs, WidgetAt (run CART_REFRESH ⟨h, t⟩ evs).heap this oa cfg ∧
      ∃ extra, (run CART_REFRESH ⟨h, t⟩ evs).heap = h ++ extra) := by
  have hlt := widgetAt_lt hw
  refine ⟨widgetAt_append hw _, ?_, ?_, fun _ => rfl, ?_⟩
  · refine ⟨_, clear_eq hw t, widgetAt_append hw _, callAt h.length, ?_, rfl, ?_, ?_, ?_, ?_⟩
    · simp only [calls_append, calls_clientCall, callAt]
    · exact List.getElem?_eq_none (Nat.le_refl _)
    · exact fun he => Nat.lt_irrefl _ (he ▸ hlt.2)
    · exact fun he => Nat.lt_irrefl _ (he ▸ hlt.1)
    · exact (getElem?_alloc h _ _ _).1
  · intro data w' hok
    rcases onClearSucceed_cases CART_REFRESH this data ⟨h, t⟩ with ⟨e, he⟩ | ⟨c, x, hp⟩
    · rw [he] at hok; cases hok
    · rw [hp] at hok
      cases hok
      rfl
  · intro evs
    obtain ⟨extra, he⟩ := run_heap CART_REFRESH ⟨h, t⟩ evs
    exact ⟨by rw [he]; exact widgetAt_append hw _, extra, he⟩

/-- Instance of C9 on the initialised page of the scenario: a click issues a call,
the call succeeds and is broadcast, and the options object is still the one
configured. -/
theorem configuration_is_immutable_witness :
    WidgetAt (demoHeap ++ [Cell.closure Lambda.clickListener 0]) 0 1 demoCfg ∧
    WidgetAt (run demoEvent
      ⟨demoHeap ++ [Cell.closure Lambda.clickListener 0],
       [Effect.elOn (JsVal.str "click") (JsVal.ref 2)]⟩
      [Event.click JsVal.undefined, Event.succeed 0 (JsVal.num 1)]).heap 0 1 demoCfg ∧
    (run demoEvent
      ⟨demoHeap ++ [Cell.closure Lambda.clickListener 0],
       [Effect.elOn (JsVal.str "click") (JsVal.ref 2)]⟩
      [Event.click JsVal.undefined, Event.succeed 0 (JsVal.num 1)]) =
      ⟨demoHeap ++ [Cell.closure Lambda.clickListener 0] ++
         [Cell.obj [("cart", JsVal.str "cart-1"), ("scope", JsVal.str "org-a"),
                    ("username", JsVal.str "alice")],
          Cell.closure Lambda.onSuccess 0, Cell.closure Lambda.onFailure 0],
       [Effect.elOn (JsVal.str "click") (JsVal.ref 2),
        Effect.clientCall (JsVal.str "POST") (JsVal.str "shopping_cart_clear")
          (JsVal.ref 3) (JsVal.ref 4) (JsVal.ref 5),
        Effect.publish demoEvent [JsVal.str "cart-1", JsVal.undefined]]⟩ :=
  ⟨widgetAt_append demo_widgetAt _,
   ((configuration_is_immutable demoEvent (demoHeap ++ [Cell.closure Lambda.clickListener 0])
      [Effect.elOn (JsVal.str "click") (JsVal.ref 2)] 0 1 demoCfg
      (widgetAt_append demo_widgetAt _)).2.2.2.2
      [Event.click JsVal.undefined, Event.succeed 0 (JsVal.num 1)]).1,
   by decide⟩

/-- Instance of C10: the widgets differ in scope and username, the responses in
their other fields; the broadcast is the same. -/
theorem onClearSucceed_depends_on_cart_and_result_witness :
    WidgetAt (demoHeap ++ [Cell.obj [("result", JsVal.num 7), ("note", JsVal.str "a")]])
      0 1 demoCfg ∧
    WidgetAt [Cell.obj [("result", JsVal.num 7)],
              Cell.obj [("scope", JsVal.str "org-b"), ("cart", JsVal.str "cart-1"),
                        ("username", JsVal.str "bob")],
              Cell.obj [("options", JsVal.ref 1)]] 2 1
      [("scope", JsVal.str "org-b"), ("cart", JsVal.str "cart-1"),
       ("username", JsVal.str "bob")] ∧
    ∃ b, _onClearSucceed demoEvent 0 (JsVal.ref 2)
          ⟨demoHeap ++ [Cell.obj [("result", JsVal.num 7), ("note", JsVal.str "a")]], []⟩ =
          Except.ok
            ⟨demoHeap ++ [Cell.obj [("result", JsVal.num 7), ("note", JsVal.str "a")]],
             [] ++ [b]⟩ ∧
        _onClearSucceed demoEvent 2 (JsVal.ref 0)
          ⟨[Cell.obj [("result", JsVal.num 7)],
            Cell.obj [("scope", JsVal.str "org-b"), ("cart", JsVal.str "cart-1"),
                      ("username", JsVal.str "bob")],
            Cell.obj [("options", JsVal.ref 1)]], []⟩ =
          Except.ok
            ⟨[Cell.obj [("result", JsVal.num 7)],
              Cell.obj [("scope", JsVal.str "org-b"), ("cart", JsVal.str "cart-1"),
                        ("username", JsVal.str "bob")],
              Cell.obj [("options", JsVal.ref 1)]], [] ++ [b]⟩ ∧
        b = Effect.publish demoEvent [field demoCfg "cart", JsVal.num 7] :=
  ⟨widgetAt_append demo_widgetAt _, ⟨⟨_, rfl, rfl⟩, rfl⟩,
   onClearSucceed_depends_on_cart_and_result demoEvent _ _ [] [] 0 2 1 1 demoCfg _
     (JsVal.ref 2) (JsVal.ref 0) (JsVal.num 7) (widgetAt_append demo_widgetAt _)
     ⟨⟨_, rfl, rfl⟩, rfl⟩ rfl rfl rfl⟩

end ShoppingCartClear
